import Mathlib

/-!
# Verification of the WhatsApp assistant core (pulseagenteia)

Shallow embedding of the conversation-orchestration core of the
`pulseagenteia` repository: the keyword/LLM intent classifier
(`intentService`), the conversation context store (`contextService`),
the cancellation sub-flow handler and message orchestrator
(`messageProcessor`), the scheduled delivery engine
(`automaticMessageService`) and the availability engine
(`appointmentService`).

JavaScript numbers are modelled as exact rationals (`ℚ`), timestamps as
`Nat`, strings as Lean `String`/`List Char`, and database tables as Lean
lists.  Every collaborator call (database write success, gateway send,
LLM completion) is an explicit oracle parameter, so all definitions are
pure and executable.
-/

namespace Pulse

/-! ## JavaScript string primitives used by the source -/

/-- Case-folding table modelling `String.prototype.toLowerCase` on the
alphabet that actually occurs in the keyword lists of the repository and
messages: ASCII `A`-`Z` plus the Latin-1 accented capitals. -/
def lowerTable : List (Char × Char) :=
  [('A', 'a'), ('B', 'b'), ('C', 'c'), ('D', 'd'), ('E', 'e'), ('F', 'f'),
   ('G', 'g'), ('H', 'h'), ('I', 'i'), ('J', 'j'), ('K', 'k'), ('L', 'l'),
   ('M', 'm'), ('N', 'n'), ('O', 'o'), ('P', 'p'), ('Q', 'q'), ('R', 'r'),
   ('S', 's'), ('T', 't'), ('U', 'u'), ('V', 'v'), ('W', 'w'), ('X', 'x'),
   ('Y', 'y'), ('Z', 'z'),
   ('À', 'à'), ('Á', 'á'), ('Â', 'â'), ('Ã', 'ã'), ('Ä', 'ä'), ('Å', 'å'),
   ('Æ', 'æ'), ('Ç', 'ç'), ('È', 'è'), ('É', 'é'), ('Ê', 'ê'), ('Ë', 'ë'),
   ('Ì', 'ì'), ('Í', 'í'), ('Î', 'î'), ('Ï', 'ï'), ('Ð', 'ð'), ('Ñ', 'ñ'),
   ('Ò', 'ò'), ('Ó', 'ó'), ('Ô', 'ô'), ('Õ', 'õ'), ('Ö', 'ö'), ('Ø', 'ø'),
   ('Ù', 'ù'), ('Ú', 'ú'), ('Û', 'û'), ('Ü', 'ü'), ('Ý', 'ý'), ('Þ', 'þ')]

/-- Models `toLowerCase` on a single character. -/
def jsToLower (c : Char) : Char := ((lowerTable.lookup c).getD c)

/-- Models `toLowerCase` on a list of characters. -/
def jsLower (s : List Char) : List Char := s.map jsToLower

/-- JavaScript whitespace recognised by `String.prototype.trim`. -/
def jsIsSpace (c : Char) : Bool :=
  c == ' ' || c == '\t' || c == '\n' || c == '\x0d' || c == '\x0b' || c == '\x0c'

/-- Models `String.prototype.trim`. -/
def jsTrim (s : List Char) : List Char :=
  (s.dropWhile jsIsSpace).reverse.dropWhile jsIsSpace |>.reverse

/-- Does the pattern (first argument) occur at the head of the second list? -/
def startsWithL : List Char → List Char → Bool
  | [], _ => true
  | _ :: _, [] => false
  | p :: ps, c :: cs => p == c && startsWithL ps cs

/-- Does the pattern occur anywhere in the subject list?  Models
`String.prototype.includes` for a non-empty pattern. -/
def occursB (p : List Char) : List Char → Bool
  | [] => false
  | c :: rest => startsWithL p (c :: rest) || occursB p rest

/-- Fuelled global replace: replaces every non-overlapping occurrence of
`p` by `v`, scanning left to right, never rescanning replacement text.
Models one `str.replace(new RegExp(p, 'g'), v)` call of the source for a
literal pattern.  The fuel is an upper bound on the subject length. -/
def replaceAllFuel : Nat → List Char → List Char → List Char → List Char
  | 0, _, _, s => s
  | fuel + 1, p, v, s =>
    match s with
    | [] => []
    | c :: rest =>
      if p ≠ [] ∧ startsWithL p (c :: rest) = true then
        v ++ replaceAllFuel fuel p v ((c :: rest).drop p.length)
      else
        c :: replaceAllFuel fuel p v rest

/-- Global replace of a literal pattern, as performed by
`content.replace(new RegExp(..., 'g'), value)` in the source. -/
def replaceAll (p v s : List Char) : List Char :=
  replaceAllFuel s.length p v s

/-- Digit value of a decimal digit character. -/
def digitVal? (c : Char) : Option Nat :=
  if '0' ≤ c ∧ c ≤ '9' then some (c.toNat - '0'.toNat) else none

/-- Hexadecimal digit value. -/
def hexDigitVal? (c : Char) : Option Nat :=
  if '0' ≤ c ∧ c ≤ '9' then some (c.toNat - '0'.toNat)
  else if 'a' ≤ c ∧ c ≤ 'f' then some (c.toNat - 'a'.toNat + 10)
  else if 'A' ≤ c ∧ c ≤ 'F' then some (c.toNat - 'A'.toNat + 10)
  else none

/-- Read the maximal prefix of digits in the given base; `none` when the
first character is not a digit (JavaScript `NaN`). -/
def readDigits (dv : Char → Option Nat) (base : Nat) (s : List Char) : Option Nat :=
  match s with
  | [] => none
  | c :: _ =>
    if (dv c).isSome then
      some ((s.takeWhile (fun x => (dv x).isSome)).foldl
        (fun acc x => acc * base + ((dv x).getD 0)) 0)
    else none

/-- Model of JavaScript `parseInt(s)` (radix unspecified): skip leading
whitespace, optional sign, `0x`/`0X` prefix selects base 16, then the
maximal digit prefix; `none` models `NaN`. -/
def parseIntJS (s : List Char) : Option Int :=
  let t := s.dropWhile jsIsSpace
  let (sign, t) : Int × List Char :=
    match t with
    | '-' :: r => (-1, r)
    | '+' :: r => (1, r)
    | _ => (1, t)
  match t with
  | '0' :: 'x' :: r => (readDigits hexDigitVal? 16 r).map (fun n => sign * n)
  | '0' :: 'X' :: r => (readDigits hexDigitVal? 16 r).map (fun n => sign * n)
  | _ => (readDigits digitVal? 10 t).map (fun n => sign * n)

/-! ## Intent classifier (`intentService`, keyword stage)

Transcribed from `detectIntentByKeywords` and `INTENT_KEYWORDS`. -/

/-- The fixed closed set of intent labels. -/
inductive IntentType where
  | greeting | scheduling | reschedule | cancel | services_info | prices_info
  | availability | confirmation | complaint | compliment | farewell | help
  | other
deriving DecidableEq, Repr

/-- Enumeration order of the intents, as declared in the source
`INTENT_KEYWORDS` / `scores` object literals. -/
def intentOrder : List IntentType :=
  [.greeting, .scheduling, .reschedule, .cancel, .services_info, .prices_info,
   .availability, .confirmation, .complaint, .compliment, .farewell, .help,
   .other]

/-- Keyword lists per intent, from `INTENT_KEYWORDS`. -/
def INTENT_KEYWORDS : IntentType → List String
  | .greeting =>
    ["oi", "olá", "bom dia", "boa tarde", "boa noite", "hey", "e aí",
     "tudo bem", "como vai", "alo", "alô"]
  | .scheduling =>
    ["agendar", "marcar", "horário", "consulta", "agendamento", "disponível",
     "livre", "vaga", "quando", "que horas", "que dia", "próximo",
     "semana", "mês", "amanhã", "hoje"]
  | .reschedule =>
    ["remarcar", "mudar", "alterar", "trocar", "transferir", "adiar",
     "outro dia", "outro horário", "reagendar"]
  | .cancel =>
    ["cancelar", "desmarcar", "não vou", "não posso", "não conseguir",
     "imprevisto", "emergência"]
  | .services_info =>
    ["serviços", "procedimentos", "tratamentos", "o que fazem",
     "que tipo", "especialidades", "corte", "escova", "manicure",
     "pedicure", "sobrancelha", "depilação", "massagem"]
  | .prices_info =>
    ["preço", "valor", "quanto custa", "tabela", "valores",
     "orçamento", "barato", "caro", "promoção", "desconto"]
  | .availability =>
    ["aberto", "funcionando", "horário de funcionamento", "que horas abre",
     "que horas fecha", "domingo", "feriado", "disponibilidade"]
  | .confirmation =>
    ["confirmar", "confirmação", "ok", "certo", "sim", "perfeito",
     "combinado", "fechado", "beleza"]
  | .complaint =>
    ["reclamação", "problema", "ruim", "péssimo", "horrível",
     "insatisfeito", "decepcionado", "erro", "demora", "atraso"]
  | .compliment =>
    ["parabéns", "excelente", "ótimo", "maravilhoso", "perfeito",
     "adorei", "amei", "muito bom", "recomendo", "satisfeito"]
  | .farewell =>
    ["tchau", "até logo", "até mais", "obrigado", "obrigada",
     "valeu", "falou", "bye", "até"]
  | .help =>
    ["ajuda", "socorro", "não entendi", "como", "dúvida",
     "informação", "explicar", "esclarecer"]
  | .other => []

/-- Keyword-hit score of one intent against the case-folded message:
each keyword that occurs as a substring contributes 1. -/
def intentScore (msg : List Char) (i : IntentType) : Nat :=
  (INTENT_KEYWORDS i).countP (fun kw => occursB kw.data msg)

/-- One step of the maximum-search loop of the source over `scores`:
update the accumulator only on a strictly greater score. -/
def selectStep (acc : Nat × IntentType) (p : IntentType × Nat) : Nat × IntentType :=
  if p.2 > acc.1 then (p.2, p.1) else acc

/-- Source `detectIntentByKeywords(message)`: case-fold the message, score all
intents, take the strictly-improving running maximum over the declared
order starting from `(0, other)`, then derive the confidence as
`maxScore > 0 ? Math.min(maxScore * 0.3, 0.8) : 0.1`.  The decimal
constants `0.3`, `0.8`, `0.1` are written `mkRat 3 10` etc. so that the
kernel can evaluate them; `maxScore * 0.3` is `mkRat (maxScore * 3) 10`. -/
def detectIntentByKeywords (message : String) : IntentType × ℚ :=
  let normalized := jsLower message.data
  let pairs := intentOrder.map (fun i => (i, intentScore normalized i))
  let r := pairs.foldl selectStep (0, IntentType.other)
  (r.2, if r.1 > 0 then min (mkRat (r.1 * 3) 10) (mkRat 8 10) else mkRat 1 10)

/-! ## Intent classifier, LLM stage (`intentService.analyzeIntent` /
`detectIntent`)

The raw LLM completion is an oracle; the defensive validation of its
output is transcribed from the source. -/

/-- Sentiments recognised by the system. -/
inductive Sentiment where
  | positive | neutral | negative
deriving DecidableEq, Repr

/-- Validated result of the LLM analysis stage. -/
structure IntentAnalysis where
  intent : IntentType
  confidence : ℚ
  sentiment : Sentiment
  requiresHuman : Bool
deriving DecidableEq, Repr

/-- Outcome of the raw LLM intent-analysis call: the collaborator threw,
returned unparsable JSON, or returned a parsed JSON object with the
given raw fields. -/
inductive LLMOutcome where
  | err
  | badJson
  | parsed (intent : String) (confidence : ℚ) (sentiment : String) (requiresHuman : Bool)
deriving Repr

/-- The JSON name of each intent label. -/
def intentName : IntentType → String
  | .greeting => "greeting"
  | .scheduling => "scheduling"
  | .reschedule => "reschedule"
  | .cancel => "cancel"
  | .services_info => "services_info"
  | .prices_info => "prices_info"
  | .availability => "availability"
  | .confirmation => "confirmation"
  | .complaint => "complaint"
  | .compliment => "compliment"
  | .farewell => "farewell"
  | .help => "help"
  | .other => "other"

/-- Source `analyzeIntent`: on a thrown LLM error fall back to the suggested
keyword intent at confidence `0.3`; on unparsable JSON fall back at
confidence `0.5`; otherwise validate the parsed fields (unknown intent
label coerced to `other`, out-of-range confidence reset to `0.5`,
invalid sentiment coerced to `neutral`). -/
def analyzeIntent (o : LLMOutcome) (suggestedIntent : IntentType) : IntentAnalysis :=
  match o with
  | .err => ⟨suggestedIntent, mkRat 3 10, .neutral, false⟩
  | .badJson => ⟨suggestedIntent, mkRat 1 2, .neutral, false⟩
  | .parsed i c s rh =>
    ⟨((intentOrder.find? (fun x => intentName x = i)).getD .other),
     if c < 0 ∨ c > 1 then mkRat 1 2 else c,
     if s = "positive" then .positive
     else if s = "neutral" then .neutral
     else if s = "negative" then .negative
     else .neutral,
     rh⟩

/-- Source `detectIntent`: run the keyword stage; when its confidence exceeds
`0.6` return the keyword intent without consulting the LLM, otherwise
run the (validated) LLM analysis.  The boolean component records
whether the LLM stage was invoked. -/
def detectIntent (o : LLMOutcome) (message : String) : IntentType × Bool :=
  let keywordResult := detectIntentByKeywords message
  if keywordResult.2 > mkRat 6 10 then (keywordResult.1, false)
  else ((analyzeIntent o keywordResult.1).intent, true)

/-! ## Appointments (`appointmentService`) -/

/-- Appointment lifecycle states. -/
inductive AppointmentStatus where
  | scheduled | confirmed | in_progress | completed | cancelled | no_show
deriving DecidableEq, Repr

/-- A row of the `appointments` table (the columns the verified code
reads). -/
structure Appointment where
  id : Nat
  client_phone : String
  professional_id : Nat
  service_name : String
  appointment_date : String
  appointment_time : String
  status : AppointmentStatus
deriving DecidableEq, Repr

/-- Placeholder appointment used for the (guarded, unreachable)
out-of-bounds list access. -/
def dummyAppointment : Appointment := ⟨0, "", 0, "", "", "", .scheduled⟩

/-- Source `cancelAppointment`: set the status of every row with the given id
to `cancelled`; the boolean oracle is the database update succeeding
(on failure nothing is written and `success: false` is returned). -/
def cancelAppointment (dbOk : Bool) (appointmentId : Nat) (db : List Appointment) :
    Bool × List Appointment :=
  if dbOk then
    (true, db.map (fun a => if a.id = appointmentId then { a with status := .cancelled } else a))
  else
    (false, db)

/-! ## Conversation context store (`contextService`) -/

/-- One entry of the rolling `lastTopics` history. -/
structure HistoryEntry where
  message : String
  response : Option String
  timestamp : Nat
  intent : Option String
deriving DecidableEq, Repr

/-- The `context_data` JSON blob of a conversation context: message
count, rolling history, and the cancellation-flow scratch keys. -/
structure ContextData where
  messageCount : Nat
  lastInteraction : Option Nat
  lastTopics : List HistoryEntry
  awaitingCancellation : Bool
  cancellableAppointments : Option (List Appointment)
deriving DecidableEq, Repr

/-- The `context_data` blob of a freshly created context
(`createConversationContext`). -/
def initialContextData : ContextData :=
  { messageCount := 0, lastInteraction := none, lastTopics := [],
    awaitingCancellation := false, cancellableAppointments := none }

/-- The partial-update argument of `updateConversationContext`.  A
`none` field means the key is absent from the update object. -/
structure ContextUpdates where
  client_name : Option String := none
  intent : Option String := none
  sentiment : Option String := none
  conversation_state : Option String := none
  lastMessage : Option String := none
  lastResponse : Option String := none
  awaitingCancellation : Option Bool := none
  cancellableAppointments : Option (Option (List Appointment)) := none
deriving Repr

/-- The `context_data` merge performed by `updateConversationContext`:
always increment `messageCount` and refresh `lastInteraction`; when a
(non-empty, i.e. truthy) `lastMessage` is supplied, append a history
entry and keep only the last 10 (`slice(-10)`); merge the remaining
scratch keys verbatim. -/
def updateConversationContext (now : Nat) (updates : ContextUpdates) (d : ContextData) :
    ContextData :=
  let topics :=
    match updates.lastMessage with
    | some m =>
      if m ≠ "" then
        let l := d.lastTopics ++
          [{ message := m, response := updates.lastResponse,
             timestamp := now, intent := updates.intent }]
        if l.length > 10 then l.drop (l.length - 10) else l
      else d.lastTopics
    | none => d.lastTopics
  { messageCount := d.messageCount + 1
    lastInteraction := some now
    lastTopics := topics
    awaitingCancellation := updates.awaitingCancellation.getD d.awaitingCancellation
    cancellableAppointments := updates.cancellableAppointments.getD d.cancellableAppointments }

/-- A `conversation_contexts` row as loaded by `getOrCreateContext`
(the columns the verified code reads).  The table columns are fixed:
`id`, `establishment_id`, `client_phone`, `client_name`,
`context_data`, `last_interaction`, `conversation_state`, `intent`,
`sentiment`; all flow-scratch keys live inside the `context_data`
column. -/
structure ContextRow where
  establishment_id : String
  client_phone : String
  intent : Option String
  context_data : ContextData
deriving Repr

/-! ## Cancellation sub-flow (`MessageProcessor.handleCancellationIntent`)

Replies are modelled as tagged outcomes; the human-readable Portuguese
strings built by the source are a rendering of these tags and carry no
further state. -/

/-- The possible replies of the cancellation handler. -/
inductive CancellationReply where
  | reprompt
  | cancelledOk (apt : Appointment)
  | cancelError
  | listShown (apts : List Appointment)
  | noneCancellable
deriving DecidableEq, Repr

/-- The not-yet-awaiting branch of the handler: list up to 3 cancellable
(scheduled/confirmed) appointments and set the awaiting sub-state. -/
def cancellationListing (now : Nat) (clientAppointments : List Appointment)
    (ctx : ContextData) (db : List Appointment) :
    CancellationReply × ContextData × List Appointment :=
  let cancellableAppointments := clientAppointments.filter
    (fun apt => decide (apt.status = .scheduled ∨ apt.status = .confirmed))
  if cancellableAppointments.length = 0 then
    (.noneCancellable, ctx, db)
  else
    let shown := cancellableAppointments.take 3
    let ctx' := updateConversationContext now
      { awaitingCancellation := some true, cancellableAppointments := some (some shown) } ctx
    (.listShown shown, ctx', db)

/-- The top-level property access `context.awaitingCancellation`
performed by the source guard (messageProcessor.ts line 433).  The
handler receives the `conversation_contexts` row loaded by
`getOrCreateContext`; `updateContext` merges the scratch keys into the
`context_data` column and never creates a top-level column of this
name, so the JavaScript access yields `undefined` on every row the
program can produce. -/
def rowAwaitingCancellation (_context : ContextRow) : Option Bool := none

/-- The top-level property access `context.cancellableAppointments`
(messageProcessor.ts line 433); as with `rowAwaitingCancellation`, no
row of the program carries such a property, so the access yields
`undefined`. -/
def rowCancellableAppointments (_context : ContextRow) : Option (List Appointment) := none

/-- Source `handleCancellationIntent`: the guard reads
`context.awaitingCancellation && context.cancellableAppointments` as
top-level properties of the context row; when (hypothetically) truthy,
`parseInt` the (lower-cased, trimmed) inbound text, re-prompt on `NaN`
or an out-of-range 1-based index, and otherwise cancel the chosen
candidate and clear the sub-state inside `context_data` before
inspecting the cancellation outcome.  Because the row never carries
those top-level properties (they are stored inside `context_data`),
the guard is always falsy and the listing branch runs on every call —
the choice branch is transcribed here but is dead code, as in the
program. -/
def handleCancellationIntent (now : Nat) (cancelOk : Bool) (db : List Appointment)
    (clientAppointments : List Appointment) (context : ContextRow)
    (messageContent : Option String) :
    CancellationReply × ContextData × List Appointment :=
  let messageText := jsLower (messageContent.getD "").data
  match (rowAwaitingCancellation context).getD false, rowCancellableAppointments context with
  | true, some cands =>
    match parseIntJS (jsTrim messageText) with
    | none => (.reprompt, context.context_data, db)
    | some choice =>
      if choice < 1 ∨ choice > cands.length then
        (.reprompt, context.context_data, db)
      else
        let appointmentToCancel := cands.getD (choice.toNat - 1) dummyAppointment
        let r := cancelAppointment cancelOk appointmentToCancel.id db
        let ctx' := updateConversationContext now
          { awaitingCancellation := some false, cancellableAppointments := some none }
          context.context_data
        (if r.1 then .cancelledOk appointmentToCancel else .cancelError, ctx', r.2)
  | _, _ => cancellationListing now clientAppointments context.context_data db

/-! ## Scheduled delivery engine (`automaticMessageService`) -/

/-- Delivery status of a scheduled message. -/
inductive ScheduledStatus where
  | pending | sent | failed
deriving DecidableEq, Repr

/-- A row of the `scheduled_messages` table. -/
structure ScheduledMessage where
  id : Nat
  client_phone : String
  message_content : String
  scheduled_for : Nat
  sent_at : Option Nat
  status : ScheduledStatus
deriving DecidableEq, Repr

/-- Outcome of one outbound gateway send: success, reported failure, or
a thrown exception. -/
inductive SendOutcome where
  | ok | sendFail | exn
deriving DecidableEq, Repr

/-- Status transition written back by `sendScheduledMessage` for one
row: `sent` with a sent timestamp on success, `failed` with a cleared
timestamp on reported failure, `failed` (timestamp untouched) when the
send threw. -/
def applyOutcome (o : SendOutcome) (now : Nat) (r : ScheduledMessage) : ScheduledMessage :=
  match o with
  | .ok => { r with status := .sent, sent_at := some now }
  | .sendFail => { r with status := .failed, sent_at := none }
  | .exn => { r with status := .failed }

/-- Source `sendScheduledMessage(message)`: attempt the send (oracle keyed by
message id) and update every row with that id accordingly. -/
def sendScheduledMessage (send : Nat → SendOutcome) (now : Nat) (message : ScheduledMessage)
    (db : List ScheduledMessage) : List ScheduledMessage :=
  db.map (fun r => if r.id = message.id then applyOutcome (send message.id) now r else r)

/-- The rows selected by one sweep: `pending` with `scheduled_for ≤ now`,
ordered by `scheduled_for` ascending. -/
def dueMessages (now : Nat) (db : List ScheduledMessage) : List ScheduledMessage :=
  (db.filter (fun r => decide (r.status = .pending ∧ r.scheduled_for ≤ now))).insertionSort
    (fun a b => a.scheduled_for ≤ b.scheduled_for)

/-- Source `processPendingMessages`: send each due message in turn, writing the
status transition back after each send. -/
def processPendingMessages (send : Nat → SendOutcome) (now : Nat)
    (db : List ScheduledMessage) : List ScheduledMessage :=
  (dueMessages now db).foldl (fun acc m => sendScheduledMessage send now m acc) db

/-- Template rendering as performed inline by `scheduleMessage` and
`sendAppointmentConfirmation`: for each `(key, value)` entry in
insertion order, globally replace `\x7bkey\x7d` by `value`. -/
def renderTemplate (vars : List (String × String)) (content : String) : String :=
  ⟨vars.foldl (fun acc kv =>
      replaceAll ('\x7b' :: kv.1.data ++ ['\x7d']) kv.2.data acc) content.data⟩

/-! ## Availability engine (`AppointmentService.getAvailableSlots`) -/

/-- A professional roster row (the columns the query reads). -/
structure Professional where
  id : Nat
  name : String
  establishment_id : String
  active : Bool
deriving DecidableEq, Repr

/-- An available slot. -/
structure AvailableSlot where
  date : String
  time : String
  professional_id : Nat
  professional_name : String
deriving DecidableEq, Repr

/-- Models `hour.toString().padStart(2, "0")` of the source. -/
def pad2 (n : Nat) : String := if n < 10 then "0" ++ toString n else toString n

/-- The fixed slot grid: hours 8 to 17, minutes 0 and 30, rendered as
`HH:MM:00`. -/
def timeSlots : List String :=
  ((List.range 18).drop 8).flatMap (fun hour =>
    [0, 30].map (fun minute => pad2 hour ++ ":" ++ pad2 minute ++ ":00"))

/-- Source `getAvailableSlots(establishmentId, date?, professionalId?)` over
in-memory tables: enumerate the active professionals of the establishment
(optionally one), and for each emit every grid slot not occupied by a
`scheduled`/`confirmed` appointment on the target date at that exact
time.  `todayStr` stands for `format(new Date(), "yyyy-MM-dd")`. -/
def getAvailableSlots (professionalsTable : List Professional)
    (appointmentsTable : List Appointment) (establishmentId : String)
    (todayStr : String) (date : Option String) (professionalId : Option Nat) :
    List AvailableSlot :=
  let targetDate := date.getD todayStr
  let professionals := professionalsTable.filter (fun p =>
    p.establishment_id == establishmentId && p.active &&
      (match professionalId with
       | none => true
       | some pid => p.id == pid))
  let existingAppointments := appointmentsTable.filter (fun a =>
    a.appointment_date == targetDate &&
      (a.status == .scheduled || a.status == .confirmed))
  professionals.flatMap (fun prof =>
    timeSlots.filterMap (fun timeSlot =>
      if existingAppointments.any (fun apt =>
          apt.professional_id == prof.id && apt.appointment_time == timeSlot) then
        none
      else
        some { date := targetDate, time := timeSlot,
               professional_id := prof.id, professional_name := prof.name }))

/-! ## Orchestrator (`MessageProcessor.processMessage`)

The control flow of one inbound turn, with every collaborator an
explicit oracle.  The second component of the result is the list of
message texts handed to the outbound gateway (`sendTextMessage`) during
the turn, in order. -/

/-- Content of the `welcome` template (sent verbatim by
`sendWelcomeMessage`). -/
def welcomeTemplateContent : String :=
  "Olá! 👋 Bem-vindo(a) ao nosso atendimento via WhatsApp!\n\nEu sou seu assistente virtual e estou aqui para ajudar você com:\n\n📅 Agendamentos\n🔍 Consulta de horários\n❌ Cancelamentos\n💬 Dúvidas gerais\n\nComo posso ajudar você hoje?"

/-- The inbound message shape consumed by the orchestrator. -/
structure ProcessedMessage where
  clientPhone : String
  messageContent : Option String
  messageType : String
deriving Repr

/-- Collaborator oracles for one orchestrated turn. -/
structure Collaborators where
  saveOk : Bool
  context : Option ContextRow
  llmClassifier : LLMOutcome
  llmReply : Except Unit String
  schedulingReply : String
  cancellationReply : String
  sendOk : Bool

/-- The result returned to the webhook layer. -/
structure ProcessingResult where
  success : Bool
  response : Option String
  error : Option String
deriving DecidableEq, Repr

/-- Source `processMessage`: save the inbound message (a database failure
throws to the outer catch), short-circuit non-text messages, load the
context, send the one-time welcome to brand-new clients, classify the
intent, produce the reply (scheduling/cancellation handlers absorb
their own errors and always return text; `generateResponse` rethrows
LLM failures, which the outer catch maps to a failure result without
sending anything), then send the reply and report the send result. -/
def processMessage (o : Collaborators) (message : ProcessedMessage) :
    ProcessingResult × List String :=
  if o.saveOk = false then
    ({ success := false, response := none,
       error := some "Falha no processamento da mensagem" }, [])
  else if message.messageType ≠ "text" ∨ message.messageContent = none then
    ({ success := true,
       response := some "Mensagem recebida. No momento, só posso responder mensagens de texto.",
       error := none }, [])
  else
    match o.context with
    | none =>
      ({ success := false, response := none,
         error := some "Falha ao obter contexto da conversação" }, [])
    | some context =>
      let welcomeSends : List String :=
        if context.context_data.messageCount = 0 then [welcomeTemplateContent] else []
      let content := message.messageContent.getD ""
      let intent := (detectIntent o.llmClassifier content).1
      let replyResult : Except Unit String :=
        if intent = .scheduling then .ok o.schedulingReply
        else if intent = .cancel then .ok o.cancellationReply
        else o.llmReply
      match replyResult with
      | .error _ =>
        ({ success := false, response := none,
           error := some "Falha no processamento da mensagem" }, welcomeSends)
      | .ok responseMessage =>
        if o.sendOk then
          ({ success := true, response := some responseMessage, error := none },
            welcomeSends ++ [responseMessage])
        else
          ({ success := false, response := none, error := some "Falha ao enviar resposta" },
            welcomeSends ++ [responseMessage])

/-! ## Spec-side characterisations (for refinement statements)

These definitions follow the wording of the specification for the keyword
stage and are proven to agree with the source-derived
`detectIntentByKeywords`. -/

/-- Spec wording: the highest keyword-hit count over all intents. -/
def keywordMaxScore (message : String) : Nat :=
  (intentOrder.map (fun i => intentScore (jsLower message.data) i)).foldl max 0

/-- Spec wording: the first-declared intent attaining the highest hit
count (`other` when nothing hits). -/
def keywordWinner (message : String) : IntentType :=
  if keywordMaxScore message = 0 then .other
  else
    (intentOrder.find?
      (fun i => intentScore (jsLower message.data) i == keywordMaxScore message)).getD .other

/-- The placeholder pattern `\x7bname\x7d` of a variable name. -/
def placeholderOf (name : String) : List Char := '\x7b' :: name.data ++ ['\x7d']

/-! ## Concrete instances used by witnesses and counterexamples -/

/-- A sample appointment with the given id and status. -/
def sampleApt (i : Nat) (st : AppointmentStatus) : Appointment :=
  ⟨i, "5511999990000", 1, "corte", "2026-01-01", "09:00:00", st⟩

/-- A context awaiting a cancellation choice among three candidates. -/
def awaitingCtx : ContextData :=
  { messageCount := 4, lastInteraction := none, lastTopics := [],
    awaitingCancellation := true,
    cancellableAppointments :=
      some [sampleApt 1 .scheduled, sampleApt 2 .confirmed, sampleApt 3 .scheduled] }

/-- The appointments table backing `awaitingCtx`. -/
def sampleDb : List Appointment :=
  [sampleApt 1 .scheduled, sampleApt 2 .confirmed, sampleApt 3 .scheduled]

/-- The conversation-context row after the listing turn: the awaiting
flag and the candidate list live inside the `context_data` column,
where `updateContext` stored them; the row has no top-level scratch
properties. -/
def awaitingRow : ContextRow :=
  { establishment_id := "e1", client_phone := "5511999990000",
    intent := some "cancel", context_data := awaitingCtx }

/-- A sample history entry. -/
def sampleEntry : HistoryEntry := ⟨"m", none, 0, none⟩

/-- A context whose rolling history is full (10 entries). -/
def fullHistoryCtx : ContextData :=
  { messageCount := 12, lastInteraction := none,
    lastTopics := List.replicate 10 sampleEntry,
    awaitingCancellation := false, cancellableAppointments := none }

/-- Scheduled-message rows for the sweep witness: two due pending rows,
one future pending row, one already-sent row. -/
def sampleSweepDb : List ScheduledMessage :=
  [⟨1, "p1", "m1", 40, none, .pending⟩,
   ⟨2, "p2", "m2", 10, none, .pending⟩,
   ⟨3, "p3", "m3", 60, none, .pending⟩,
   ⟨4, "p4", "m4", 5, some 6, .sent⟩]

/-- Send oracle for the sweep witness: id 2 fails, everything else
succeeds. -/
def sampleSend : Nat → SendOutcome := fun i => if i = 2 then .sendFail else .ok

/-- Roster for the availability witness. -/
def sampleProfessionals : List Professional := [⟨1, "Ana", "e1", true⟩]

/-- Appointments for the availability witness: one confirmed booking at
09:00. -/
def sampleAppointments : List Appointment :=
  [⟨7, "5511999990000", 1, "corte", "2026-01-01", "09:00:00", .confirmed⟩]

/-- A context row for an established client (not a new client). -/
def sampleContextRow : ContextRow :=
  { establishment_id := "e1", client_phone := "5511999990000",
    intent := some "greeting",
    context_data := { messageCount := 5, lastInteraction := none, lastTopics := [],
                      awaitingCancellation := false, cancellableAppointments := none } }

/-- Collaborators where both the LLM classifier stage and the LLM reply
generation fail, while persistence and the gateway are healthy. -/
def failingLLMCollaborators : Collaborators :=
  { saveOk := true, context := some sampleContextRow,
    llmClassifier := .err, llmReply := .error (),
    schedulingReply := "sched", cancellationReply := "cancel", sendOk := true }

/-- Collaborators where the LLM classifier stage fails but reply
generation succeeds. -/
def failingClassifierCollaborators : Collaborators :=
  { saveOk := true, context := some sampleContextRow,
    llmClassifier := .err, llmReply := .ok "resposta",
    schedulingReply := "sched", cancellationReply := "cancel", sendOk := true }

/-- A plain inbound text message with no intent keywords. -/
def sampleInboundMessage : ProcessedMessage := ⟨"5511999990000", some "xyzq", "text"⟩

/-- The fire-at order on scheduled messages is total. -/
instance : IsTotal ScheduledMessage (fun a b => a.scheduled_for ≤ b.scheduled_for) :=
  ⟨fun a b => Nat.le_total a.scheduled_for b.scheduled_for⟩

/-- The fire-at order on scheduled messages is transitive. -/
instance : IsTrans ScheduledMessage (fun a b => a.scheduled_for ≤ b.scheduled_for) :=
  ⟨fun _ _ _ h1 h2 => Nat.le_trans h1 h2⟩

end Pulse

namespace Pulse

/-! # Theorems -/

/-! ## Helper lemmas: global replacement -/

/-- A pattern that does not occur leaves the fuelled replacement as the
identity. -/
theorem replaceAllFuel_of_occursB_eq_false (p v : List Char) :
    ∀ (fuel : Nat) (s : List Char), occursB p s = false → replaceAllFuel fuel p v s = s := by
  intro fuel
  induction fuel with
  | zero => intro s _; rfl
  | succ n ih =>
    intro s h
    cases s with
    | nil => rfl
    | cons c rest =>
      have hsw : startsWithL p (c :: rest) = false := by
        have := h
        simp only [occursB, Bool.or_eq_false_iff] at this
        exact this.1
      have hrest : occursB p rest = false := by
        have := h
        simp only [occursB, Bool.or_eq_false_iff] at this
        exact this.2
      simp only [replaceAllFuel]
      rw [if_neg]
      · rw [ih rest hrest]
      · intro hcon
        rw [hsw] at hcon
        exact Bool.false_ne_true hcon.2

/-- A pattern that does not occur leaves `replaceAll` as the identity. -/
theorem replaceAll_of_occursB_eq_false (p v s : List Char) (h : occursB p s = false) :
    replaceAll p v s = s :=
  replaceAllFuel_of_occursB_eq_false p v s.length s h

/-- Folding the per-variable replacement over a string in which no
placeholder of any listed variable occurs is the identity. -/
theorem foldl_replaceAll_fixed (vs : List (String × String)) (s : List Char)
    (h : ∀ kv ∈ vs, occursB (placeholderOf kv.1) s = false) :
    vs.foldl (fun acc kv => replaceAll ('\x7b' :: kv.1.data ++ ['\x7d']) kv.2.data acc) s = s := by
  induction vs with
  | nil => rfl
  | cons kv t ih =>
    simp only [List.foldl_cons]
    have hh : occursB ('\x7b' :: kv.1.data ++ ['\x7d']) s = false := by
      simpa [placeholderOf] using h kv (by simp)
    rw [replaceAll_of_occursB_eq_false _ _ _ hh]
    exact ih (fun x hx => h x (by simp [hx]))

/-! ## C5 — template rendering -/

/-- C5 (corrected): every `\x7bname\x7d` occurrence of the worked
example with a matching key is substituted and the unmatched one kept
verbatim; and rendering is idempotent for every template and variable
map *whose rendered output contains no placeholder of any key* (the
unconditional idempotence of the original claim fails, see the
counterexample: a value may itself introduce a placeholder). -/
theorem renderTemplate_example_and_conditional_idempotence
    (vs : List (String × String)) (content : String)
    (h : ∀ kv ∈ vs, occursB (placeholderOf kv.1) (renderTemplate vs content).data = false) :
    renderTemplate [("a", "X")] "Hi \x7ba\x7d \x7bb\x7d" = "Hi X \x7bb\x7d"
    ∧ renderTemplate vs (renderTemplate vs content) = renderTemplate vs content := by
  constructor
  · decide
  · exact congrArg String.mk (foldl_replaceAll_fixed vs (renderTemplate vs content).data h)

/-- C5 witness: the conditional-idempotence hypothesis holds for the
worked example of the claim itself, and re-rendering it is the identity. -/
theorem renderTemplate_example_and_conditional_idempotence_witness :
    (∀ kv ∈ [("a", "X")],
       occursB (placeholderOf kv.1)
         (renderTemplate [("a", "X")] "Hi \x7ba\x7d \x7bb\x7d").data = false)
    ∧ renderTemplate [("a", "X")] (renderTemplate [("a", "X")] "Hi \x7ba\x7d \x7bb\x7d") =
        renderTemplate [("a", "X")] "Hi \x7ba\x7d \x7bb\x7d" :=
  ⟨by decide,
   (renderTemplate_example_and_conditional_idempotence [("a", "X")] "Hi \x7ba\x7d \x7bb\x7d"
     (by decide)).2⟩

/-- C5 counterexample: with the variable map `a ↦ "\x7ba\x7d!"`,
rendering `"\x7ba\x7d"` once yields `"\x7ba\x7d!"` and twice yields
`"\x7ba\x7d!!"`, so rendering is not idempotent as universally claimed. -/
theorem renderTemplate_not_idempotent :
    renderTemplate [("a", "\x7ba\x7d!")] (renderTemplate [("a", "\x7ba\x7d!")] "\x7ba\x7d")
    ≠ renderTemplate [("a", "\x7ba\x7d!")] "\x7ba\x7d" := by decide

/-! ## C7 — rolling history cap -/

/-- One update keeps the rolling history at 10 entries or fewer. -/
theorem updateConversationContext_lastTopics_le
    (now : Nat) (u : ContextUpdates) (d : ContextData) (h : d.lastTopics.length ≤ 10) :
    (updateConversationContext now u d).lastTopics.length ≤ 10 := by
  obtain ⟨cn, itn, st, cs, lm, lr, aw, ca⟩ := u
  cases lm with
  | none => exact h
  | some m =>
    by_cases hme : m = ""
    · simp only [updateConversationContext, hme]
      simpa using h
    · simp only [updateConversationContext, if_pos hme]
      by_cases hlen : (d.lastTopics ++
          [({ message := m, response := lr,
              timestamp := now, intent := itn } : HistoryEntry)]).length > 10
      · simp only [if_pos hlen, List.length_drop]
        omega
      · simp only [if_neg hlen]
        omega

/-- C7: starting from a fresh context, no sequence of updates ever
grows the rolling history beyond 10 entries; and an update that appends
to a full 10-entry history evicts exactly the oldest entry, keeping the
most recent 10 in order. -/
theorem rollingHistory_capped_and_evicts_oldest :
    (∀ (updatesList : List (Nat × ContextUpdates)),
      (updatesList.foldl (fun d nu => updateConversationContext nu.1 nu.2 d)
        initialContextData).lastTopics.length ≤ 10)
    ∧ (∀ (now : Nat) (u : ContextUpdates) (d : ContextData) (m : String),
        d.lastTopics.length = 10 → u.lastMessage = some m → m ≠ "" →
        (updateConversationContext now u d).lastTopics =
          d.lastTopics.drop 1 ++
            [({ message := m, response := u.lastResponse,
                timestamp := now, intent := u.intent } : HistoryEntry)]) := by
  constructor
  · have key : ∀ (l : List (Nat × ContextUpdates)) (d : ContextData),
        d.lastTopics.length ≤ 10 →
        (l.foldl (fun d nu => updateConversationContext nu.1 nu.2 d) d).lastTopics.length ≤ 10 := by
      intro l
      induction l with
      | nil => intro d h; simpa using h
      | cons nu t ih =>
        intro d h
        simp only [List.foldl_cons]
        exact ih _ (updateConversationContext_lastTopics_le nu.1 nu.2 d h)
    intro updatesList
    exact key updatesList initialContextData (by simp [initialContextData])
  · intro now u d m h10 hm hne
    obtain ⟨cn, itn, st, cs, lm, lr, aw, ca⟩ := u
    simp only at hm
    subst hm
    have hlen : (d.lastTopics ++
        [({ message := m, response := lr,
            timestamp := now, intent := itn } : HistoryEntry)]).length > 10 := by
      simp [h10]
    simp only [updateConversationContext, if_pos hne, if_pos hlen]
    rw [List.drop_append_eq_append_drop]
    simp [h10]

/-- C7 witness: appending an 11th entry to a full history evicts the
first entry. -/
theorem rollingHistory_capped_and_evicts_oldest_witness :
    fullHistoryCtx.lastTopics.length = 10
    ∧ (updateConversationContext 7 { lastMessage := some "oi" } fullHistoryCtx).lastTopics =
        fullHistoryCtx.lastTopics.drop 1 ++
          [{ message := "oi", response := none, timestamp := 7, intent := none }] :=
  ⟨by decide,
   rollingHistory_capped_and_evicts_oldest.2 7 { lastMessage := some "oi" } fullHistoryCtx "oi"
     (by decide) rfl (by decide)⟩

/-! ## C8 — message count -/

/-- C8: every update increments the message count by exactly one (in
particular when a new exchange is recorded in the patch), so the count
never decreases across any sequence of update calls for the same key. -/
theorem messageCount_increments_and_never_decreases :
    (∀ (now : Nat) (u : ContextUpdates) (d : ContextData),
      (updateConversationContext now u d).messageCount = d.messageCount + 1)
    ∧ (∀ (l : List (Nat × ContextUpdates)) (d : ContextData),
        d.messageCount ≤
          (l.foldl (fun acc nu => updateConversationContext nu.1 nu.2 acc) d).messageCount) := by
  refine ⟨fun now u d => rfl, ?_⟩
  intro l
  induction l with
  | nil => intro d; simp
  | cons nu t ih =>
    intro d
    simp only [List.foldl_cons]
    exact Nat.le_trans (Nat.le_succ _) (ih (updateConversationContext nu.1 nu.2 d))

/-! ## Helper lemmas: the strictly-improving maximum loop -/

/-- The running maximum is at least its initial value. -/
theorem foldl_max2_init_le (l : List (IntentType × Nat)) (a : Nat) :
    a ≤ l.foldl (fun m p => max m p.2) a := by
  induction l generalizing a with
  | nil => simp
  | cons p t ih =>
    simp only [List.foldl_cons]
    exact le_trans (Nat.le_max_left a p.2) (ih (max a p.2))

/-- Every listed score is at most the running maximum. -/
theorem foldl_max2_mem_le (l : List (IntentType × Nat)) (a : Nat) (p : IntentType × Nat)
    (hp : p ∈ l) : p.2 ≤ l.foldl (fun m q => max m q.2) a := by
  induction l generalizing a with
  | nil => cases hp
  | cons q t ih =>
    simp only [List.foldl_cons]
    rcases List.mem_cons.mp hp with h | h
    · subst h
      exact le_trans (Nat.le_max_right a p.2) (foldl_max2_init_le t _)
    · exact ih (max a q.2) h

/-- The running maximum is the initial value or is attained by some
list element. -/
theorem foldl_max2_attained (l : List (IntentType × Nat)) (a : Nat) :
    l.foldl (fun m q => max m q.2) a = a ∨
      ∃ p ∈ l, p.2 = l.foldl (fun m q => max m q.2) a := by
  induction l generalizing a with
  | nil => left; rfl
  | cons q t ih =>
    simp only [List.foldl_cons]
    rcases ih (max a q.2) with h | ⟨p, hp, hpe⟩
    · by_cases hq : q.2 ≤ a
      · left
        rw [h]
        exact Nat.max_eq_left hq
      · right
        exact ⟨q, by simp, by rw [h, Nat.max_eq_right (le_of_not_le hq)]⟩
    · right
      exact ⟨p, by simp [hp], hpe⟩

/-- The first component of the maximum-search loop of the source is the
maximum score. -/
theorem foldl_selectStep_fst (l : List (IntentType × Nat)) (a : Nat) (d : IntentType) :
    (l.foldl selectStep (a, d)).1 = l.foldl (fun m q => max m q.2) a := by
  induction l generalizing a d with
  | nil => rfl
  | cons p t ih =>
    simp only [List.foldl_cons]
    by_cases h : p.2 > a
    · rw [show selectStep (a, d) p = (p.2, p.1) from if_pos h, ih,
        Nat.max_eq_right (le_of_lt h)]
    · rw [show selectStep (a, d) p = (a, d) from if_neg h, ih,
        Nat.max_eq_left (le_of_not_lt h)]

/-- When no listed score beats the initial value the loop leaves the
accumulator untouched. -/
theorem foldl_selectStep_of_le (l : List (IntentType × Nat)) (a : Nat) (d : IntentType)
    (h : ∀ p ∈ l, p.2 ≤ a) : l.foldl selectStep (a, d) = (a, d) := by
  induction l with
  | nil => rfl
  | cons p t ih =>
    simp only [List.foldl_cons]
    rw [show selectStep (a, d) p = (a, d) from if_neg (not_lt.mpr (h p (by simp)))]
    exact ih (fun q hq => h q (by simp [hq]))

/-- When some listed score beats the initial value, the loop returns
the first element attaining the overall maximum (strict improvement
keeps the earliest maximiser). -/
theorem foldl_selectStep_snd (l : List (IntentType × Nat)) :
    ∀ (a : Nat) (d : IntentType), a < l.foldl (fun m q => max m q.2) a →
    (l.foldl selectStep (a, d)).2 =
      ((l.find? (fun p => p.2 == l.foldl (fun m q => max m q.2) a)).map Prod.fst).getD d := by
  induction l with
  | nil =>
    intro a d h
    simp at h
  | cons q t ih =>
    intro a d h
    simp only [List.foldl_cons] at h ⊢
    by_cases hqa : q.2 > a
    · have hmax : max a q.2 = q.2 := Nat.max_eq_right (le_of_lt hqa)
      rw [hmax] at h ⊢
      rw [show selectStep (a, d) q = (q.2, q.1) from if_pos hqa]
      by_cases hqM : q.2 = t.foldl (fun m p => max m p.2) q.2
      · have hall : ∀ p ∈ t, p.2 ≤ q.2 := fun p hp => by
          rw [hqM]
          exact foldl_max2_mem_le t q.2 p hp
        rw [foldl_selectStep_of_le t q.2 q.1 hall,
          List.find?_cons_of_pos _ (by simpa using hqM)]
        rfl
      · have hq2M : q.2 < t.foldl (fun m p => max m p.2) q.2 :=
          lt_of_le_of_ne (foldl_max2_init_le t q.2) hqM
        rw [ih q.2 q.1 hq2M, List.find?_cons_of_neg _ (by simpa using hqM)]
        rcases foldl_max2_attained t q.2 with he | ⟨p, hp, hpe⟩
        · rw [he] at hq2M
          exact absurd hq2M (lt_irrefl _)
        · have hsome : (t.find? (fun p => p.2 == t.foldl (fun m q => max m q.2) q.2)).isSome :=
            List.find?_isSome.mpr ⟨p, hp, by simpa using hpe⟩
          obtain ⟨r, hr⟩ := Option.isSome_iff_exists.mp hsome
          rw [hr]
          rfl
    · have hmax : max a q.2 = a := Nat.max_eq_left (le_of_not_lt hqa)
      rw [hmax] at h ⊢
      rw [show selectStep (a, d) q = (a, d) from if_neg hqa, ih a d h,
        List.find?_cons_of_neg]
      simp only [beq_iff_eq]
      exact Nat.ne_of_lt (lt_of_le_of_lt (le_of_not_lt hqa) h)

/-- A successful association-list lookup comes from a listed pair. -/
theorem lookup_mem_pairs :
    ∀ {l : List (Char × Char)} {a b : Char}, l.lookup a = some b → (a, b) ∈ l := by
  intro l
  induction l with
  | nil => intro a b h; simp [List.lookup] at h
  | cons p t ih =>
    intro a b h
    obtain ⟨x, y⟩ := p
    rw [List.lookup] at h
    by_cases hax : (a == x) = true
    · rw [hax] at h
      have hax' : a = x := by simpa using hax
      have hb : y = b := by simpa using h
      subst hax'
      rw [← hb]
      exact List.mem_cons_self _ _
    · have hax' : (a == x) = false := by simpa using hax
      rw [hax'] at h
      exact List.mem_cons_of_mem _ (ih h)

/-- Case folding is idempotent: the lowering table maps into characters
that are not themselves keys of the table. -/
theorem jsToLower_idem (c : Char) : jsToLower (jsToLower c) = jsToLower c := by
  unfold jsToLower
  cases h : lowerTable.lookup c with
  | none => simp [h]
  | some v =>
    have hv : ∀ kv ∈ lowerTable, lowerTable.lookup kv.2 = none := by decide
    have := hv (c, v) (lookup_mem_pairs h)
    simp [h, this]

/-- Case folding a list twice equals case folding it once. -/
theorem jsLower_idem (s : List Char) : jsLower (jsLower s) = jsLower s := by
  unfold jsLower
  rw [List.map_map]
  exact List.map_congr_left (fun c _ => jsToLower_idem c)

/-- The strictly-improving maximum loop of the source, characterised: its
first component is the maximum score, its second the first-declared
intent attaining the maximum (`other` when the maximum is 0). -/
theorem selectLoop_characterisation (pairs : List (IntentType × Nat)) :
    pairs.foldl selectStep (0, IntentType.other) =
      (pairs.foldl (fun m q => max m q.2) 0,
       if pairs.foldl (fun m q => max m q.2) 0 = 0 then IntentType.other
       else ((pairs.find? (fun p => p.2 == pairs.foldl (fun m q => max m q.2) 0)).map
         Prod.fst).getD IntentType.other) := by
  by_cases h0 : pairs.foldl (fun m q => max m q.2) 0 = 0
  · rw [if_pos h0]
    have hall : ∀ p ∈ pairs, p.2 ≤ 0 := fun p hp => by
      have := foldl_max2_mem_le pairs 0 p hp
      omega
    rw [foldl_selectStep_of_le _ _ _ hall]
    simp [h0]
  · rw [if_neg h0]
    exact Prod.ext (foldl_selectStep_fst pairs 0 IntentType.other)
      (foldl_selectStep_snd pairs 0 IntentType.other (Nat.pos_of_ne_zero h0))

/-- Decimal-constant bridges between the kernel-evaluable `mkRat` forms
used in the definitions and ordinary rational arithmetic. -/
theorem mkRat_three_mul (n : Nat) : (mkRat (n * 3) 10 : ℚ) = (n : ℚ) * (3/10) := by
  rw [Rat.mkRat_eq_div]
  push_cast
  ring

/-! ## C3 — keyword-stage classification -/

/-- C3: the keyword stage is the pure deterministic function of the
case-folded text described by the spec: the intent is the
first-declared intent with the highest keyword-hit count (`other` on no
hits), and the confidence is `min(0.8, hits × 0.3)` on a hit and `0.1`
otherwise.  The second conjunct shows the result depends only on the
case-folded text. -/
theorem keywordStage_matches_spec (message : String) :
    detectIntentByKeywords message =
      (keywordWinner message,
       if 0 < keywordMaxScore message
       then min ((8 : ℚ)/10) ((keywordMaxScore message : ℚ) * (3/10))
       else (1 : ℚ)/10)
    ∧ detectIntentByKeywords (String.mk (jsLower message.data)) =
        detectIntentByKeywords message := by
  constructor
  · have h8 : (mkRat 8 10 : ℚ) = 8/10 := by norm_num [Rat.mkRat_eq_div]
    have h1 : (mkRat 1 10 : ℚ) = 1/10 := by norm_num [Rat.mkRat_eq_div]
    have key := selectLoop_characterisation
      (intentOrder.map (fun i => (i, intentScore (jsLower message.data) i)))
    generalize hp : intentOrder.map (fun i => (i, intentScore (jsLower message.data) i)) =
      pairs at key
    have hMS : keywordMaxScore message = pairs.foldl (fun m q => max m q.2) 0 := by
      unfold keywordMaxScore
      rw [← hp, List.foldl_map, List.foldl_map]
    have hW : keywordWinner message =
        (if pairs.foldl (fun m q => max m q.2) 0 = 0 then IntentType.other
         else ((pairs.find? (fun p =>
           p.2 == pairs.foldl (fun m q => max m q.2) 0)).map Prod.fst).getD IntentType.other) := by
      unfold keywordWinner
      rw [hMS, ← hp]
      by_cases h0 : (intentOrder.map
          (fun i => (i, intentScore (jsLower message.data) i))).foldl (fun m q => max m q.2) 0 = 0
      · rw [if_pos h0, if_pos h0]
      · rw [if_neg h0, if_neg h0, List.find?_map, Option.map_map,
          show (Prod.fst ∘ fun i => (i, intentScore (jsLower message.data) i)) =
            (fun i : IntentType => i) from rfl,
          Option.map_id']
        rfl
    have hcode : detectIntentByKeywords message =
        ((pairs.foldl selectStep (0, IntentType.other)).2,
         if (pairs.foldl selectStep (0, IntentType.other)).1 > 0
         then min (mkRat ((pairs.foldl selectStep (0, IntentType.other)).1 * 3) 10) (mkRat 8 10)
         else mkRat 1 10) := by
      rw [← hp]
      rfl
    rw [hcode, key, hW, hMS]
    refine Prod.ext rfl ?_
    show (if 0 < pairs.foldl (fun m q => max m q.2) 0 then _ else _) = _
    by_cases h0 : 0 < pairs.foldl (fun m q => max m q.2) 0
    · rw [if_pos h0, if_pos h0, mkRat_three_mul, h8, min_comm]
    · rw [if_neg h0, if_neg h0, h1]
  · simp only [detectIntentByKeywords]
    rw [jsLower_idem]

/-! ## C6 — LLM stage gating -/

/-- C6: the LLM classification stage is invoked exactly when the
keyword-stage confidence is at most `0.6`; above `0.6` the resolved
intent is the keyword-stage intent and the LLM collaborator is not
consulted (for every possible LLM outcome). -/
theorem llmStage_invoked_iff_low_confidence (message : String) (o : LLMOutcome) :
    ((detectIntent o message).2 = true ↔ (detectIntentByKeywords message).2 ≤ 6/10)
    ∧ ((6/10 : ℚ) < (detectIntentByKeywords message).2 →
        (detectIntent o message).1 = (detectIntentByKeywords message).1) := by
  have h6 : (mkRat 6 10 : ℚ) = 6/10 := by norm_num [Rat.mkRat_eq_div]
  simp only [detectIntent]
  split_ifs with h
  · rw [h6] at h
    refine ⟨⟨fun hc => ?_, fun hle => ((not_le.mpr h) hle).elim⟩, fun _ => rfl⟩
    simp at hc
  · rw [h6] at h
    have hle : (detectIntentByKeywords message).2 ≤ 6/10 := not_lt.mp h
    exact ⟨⟨fun _ => hle, fun _ => rfl⟩, fun hlt => absurd hlt (not_lt.mpr hle)⟩

/-- C6 witness: on a message with three scheduling keyword hits
(confidence `0.8 > 0.6`), the resolved intent is the keyword intent and
the LLM stage is not invoked even when the LLM collaborator would
fail. -/
theorem llmStage_invoked_iff_low_confidence_witness :
    (detectIntent .err "agendar marcar consulta").1 =
      (detectIntentByKeywords "agendar marcar consulta").1
    ∧ (detectIntent .err "agendar marcar consulta").2 = false := by
  have h := llmStage_invoked_iff_low_confidence "agendar marcar consulta" .err
  have hused : (detectIntent .err "agendar marcar consulta").2 = false := by decide
  refine ⟨?_, hused⟩
  apply h.2
  by_contra hnle
  have hle : (detectIntentByKeywords "agendar marcar consulta").2 ≤ 6/10 := not_lt.mp hnle
  have hcon := h.1.mpr hle
  rw [hused] at hcon
  exact Bool.false_ne_true hcon

/-! ## C1 — the cancellation choice branch is dead code -/

/-- C1 (code bug): the valid-index branch of the cancellation handler
is unreachable.  The guard reads `context.awaitingCancellation` and
`context.cancellableAppointments` as top-level properties of the
context row, but `updateContext` stores those scratch keys inside the
`context_data` column and the row never carries them, so every call
runs the listing branch.  At the failing input of the claim — the
candidate list stored in `context_data` and inbound text `"2"` — the
program cancels nothing and re-lists the candidates instead of
cancelling the second one. -/
theorem cancellationChoice_branch_dead :
    (∀ (now : Nat) (cancelOk : Bool) (db clientAppointments : List Appointment)
        (context : ContextRow) (messageContent : Option String),
      handleCancellationIntent now cancelOk db clientAppointments context messageContent =
        cancellationListing now clientAppointments context.context_data db)
    ∧ (handleCancellationIntent 100 true sampleDb sampleDb awaitingRow (some "2")).1 =
        .listShown [sampleApt 1 .scheduled, sampleApt 2 .confirmed, sampleApt 3 .scheduled]
    ∧ (handleCancellationIntent 100 true sampleDb sampleDb awaitingRow (some "2")).2.2 =
        sampleDb := by
  refine ⟨fun now cancelOk db clientAppointments context messageContent => rfl, ?_, ?_⟩
  · decide
  · decide

/-! ## C10 — the clear-before-outcome code is never executed -/

/-- C10 (code bug): the clearing of the sub-state coded ahead of the
`result.success` check lives inside the unreachable valid-index branch.
Evaluating the program at the claim scenario — stored candidates,
inbound `"2"` — with a failing and with a successful cancellation write
alike, the resulting `context_data` still has `awaitingCancellation =
true` with the candidate list re-stored by the listing branch: the
sub-state is never cleared. -/
theorem cancellationSubstate_never_cleared :
    ((handleCancellationIntent 100 false sampleDb sampleDb awaitingRow
        (some "2")).2.1.awaitingCancellation = true
      ∧ (handleCancellationIntent 100 false sampleDb sampleDb awaitingRow
          (some "2")).2.1.cancellableAppointments =
          some [sampleApt 1 .scheduled, sampleApt 2 .confirmed, sampleApt 3 .scheduled])
    ∧ (handleCancellationIntent 100 true sampleDb sampleDb awaitingRow
        (some "2")).2.1.awaitingCancellation = true := by
  refine ⟨⟨?_, ?_⟩, ?_⟩
  · decide
  · decide
  · decide

/-! ## Helper lemmas: the delivery sweep -/

/-- The status transition preserves the row id. -/
theorem applyOutcome_id (o : SendOutcome) (now : Nat) (r : ScheduledMessage) :
    (applyOutcome o now r).id = r.id := by
  cases o <;> rfl

/-- Folding the per-message send over rows with pairwise-distinct ids
updates exactly the rows whose id is listed, each once. -/
theorem foldl_sendScheduled (send : Nat → SendOutcome) (now : Nat) :
    ∀ (l : List ScheduledMessage) (acc : List ScheduledMessage),
      (l.map (fun m => m.id)).Nodup →
      l.foldl (fun a m => sendScheduledMessage send now m a) acc =
        acc.map (fun r => if r.id ∈ l.map (fun m => m.id)
          then applyOutcome (send r.id) now r else r) := by
  intro l
  induction l with
  | nil => intro acc _; simp
  | cons m t ih =>
    intro acc hnd
    simp only [List.map_cons, List.nodup_cons] at hnd
    obtain ⟨hm, ht⟩ := hnd
    simp only [List.foldl_cons]
    rw [ih _ ht]
    unfold sendScheduledMessage
    rw [List.map_map]
    apply List.map_congr_left
    intro r _
    by_cases hr : r.id = m.id
    · simp [Function.comp, hr, applyOutcome_id, hm]
    · simp [Function.comp, hr]

/-- Sweep `processPendingMessages` characterised pointwise: with
pairwise-distinct ids, every due pending row undergoes its status
transition and every other row is left untouched. -/
theorem processPendingMessages_eq (send : Nat → SendOutcome) (now : Nat)
    (db : List ScheduledMessage) (h : (db.map (fun r => r.id)).Nodup) :
    processPendingMessages send now db =
      db.map (fun r =>
        if r.status = .pending ∧ r.scheduled_for ≤ now
        then applyOutcome (send r.id) now r else r) := by
  unfold processPendingMessages
  have hperm : List.Perm (dueMessages now db)
      (db.filter (fun r => decide (r.status = .pending ∧ r.scheduled_for ≤ now))) :=
    List.perm_insertionSort _ _
  have hnd : ((dueMessages now db).map (fun m => m.id)).Nodup := by
    refine (hperm.map (fun m => m.id)).nodup_iff.mpr ?_
    exact List.Nodup.sublist
      ((List.filter_sublist db).map (fun m => m.id)) h
  rw [foldl_sendScheduled send now _ db hnd]
  apply List.map_congr_left
  intro r hr
  by_cases hP : r.status = .pending ∧ r.scheduled_for ≤ now
  · rw [if_pos ?_, if_pos hP]
    have hfil : r ∈ db.filter
        (fun r => decide (r.status = .pending ∧ r.scheduled_for ≤ now)) :=
      List.mem_filter.mpr ⟨hr, by simpa using hP⟩
    exact List.mem_map.mpr ⟨r, hperm.mem_iff.mpr hfil, rfl⟩
  · rw [if_neg ?_, if_neg hP]
    intro hmem
    obtain ⟨m, hmdue, hmid⟩ := List.mem_map.mp hmem
    have hmfil := hperm.mem_iff.mp hmdue
    have hmdb : m ∈ db := List.mem_of_mem_filter hmfil
    have hmP : m.status = .pending ∧ m.scheduled_for ≤ now := by
      simpa using (List.mem_filter.mp hmfil).2
    have : m = r := List.inj_on_of_nodup_map h hmdb hr hmid
    exact hP (this ▸ hmP)

/-! ## C4 — scheduled-message sweep -/

/-- C4: with pairwise-distinct row ids, one run of the sweep processes
the due pending rows in ascending fire-at order; a due pending row
transitions to `sent` with a sent timestamp on success and to `failed`
on a reported failure or exception (`applyOutcome`); every row that is
not pending is left untouched, and rows that are `sent` or `failed`
after a sweep are never selected or changed by any later sweep. -/
theorem scheduledSweep_due_transitions_and_terminal (send : Nat → SendOutcome) (now : Nat)
    (db : List ScheduledMessage) (h : (db.map (fun r => r.id)).Nodup) :
    List.Sorted (fun a b => a.scheduled_for ≤ b.scheduled_for) (dueMessages now db)
    ∧ (∀ m ∈ db, m.status = .pending → m.scheduled_for ≤ now →
        applyOutcome (send m.id) now m ∈ processPendingMessages send now db)
    ∧ (∀ m ∈ db, m.status ≠ .pending → m ∈ processPendingMessages send now db)
    ∧ (∀ m ∈ processPendingMessages send now db, m.status ≠ .pending →
        ∀ (send' : Nat → SendOutcome) (now' : Nat),
          m ∈ processPendingMessages send' now' (processPendingMessages send now db)) := by
  have heq := processPendingMessages_eq send now db h
  refine ⟨List.sorted_insertionSort _ _, ?_, ?_, ?_⟩
  · intro m hm hp hf
    rw [heq]
    exact List.mem_map.mpr ⟨m, hm, by rw [if_pos ⟨hp, hf⟩]⟩
  · intro m hm hnp
    rw [heq]
    exact List.mem_map.mpr ⟨m, hm, by rw [if_neg (fun hc => hnp hc.1)]⟩
  · intro m hm hnp send' now'
    have h2 : ((processPendingMessages send now db).map (fun r => r.id)).Nodup := by
      rw [heq, List.map_map]
      have hfun : ((fun r => r.id) ∘ fun r : ScheduledMessage =>
          if r.status = .pending ∧ r.scheduled_for ≤ now
          then applyOutcome (send r.id) now r else r) = fun r : ScheduledMessage => r.id := by
        funext r
        by_cases hP : r.status = .pending ∧ r.scheduled_for ≤ now
        · simp [Function.comp, hP, applyOutcome_id]
        · simp [Function.comp, hP]
      rw [hfun]
      exact h
    rw [processPendingMessages_eq send' now' _ h2]
    exact List.mem_map.mpr ⟨m, hm, by rw [if_neg (fun hc => hnp hc.1)]⟩

/-- C4 witness: on a table with two due pending rows, a future pending
row and an already-sent row, the due rows transition per their send
outcome and the sent row is untouched. -/
theorem scheduledSweep_due_transitions_and_terminal_witness :
    applyOutcome (sampleSend 1) 50 ⟨1, "p1", "m1", 40, none, .pending⟩ ∈
        processPendingMessages sampleSend 50 sampleSweepDb
    ∧ applyOutcome (sampleSend 2) 50 ⟨2, "p2", "m2", 10, none, .pending⟩ ∈
        processPendingMessages sampleSend 50 sampleSweepDb
    ∧ (⟨4, "p4", "m4", 5, some 6, .sent⟩ : ScheduledMessage) ∈
        processPendingMessages sampleSend 50 sampleSweepDb := by
  have h := scheduledSweep_due_transitions_and_terminal sampleSend 50 sampleSweepDb (by decide)
  exact ⟨h.2.1 ⟨1, "p1", "m1", 40, none, .pending⟩ (by decide) rfl (by decide),
         h.2.1 ⟨2, "p2", "m2", 10, none, .pending⟩ (by decide) rfl (by decide),
         h.2.2.1 ⟨4, "p4", "m4", 5, some 6, .sent⟩ (by decide) (by decide)⟩

/-! ## C9 — availability never collides with bookings -/

/-- C9: every produced slot lies on the fixed 08:00–18:00 half-hour
grid on the target date, belongs to an enumerated (active,
establishment-owned) professional, and no `scheduled`/`confirmed`
appointment exists for that professional at that exact date and time. -/
theorem availableSlots_on_grid_and_exclude_booked
    (professionalsTable : List Professional) (appointmentsTable : List Appointment)
    (establishmentId todayStr : String) (date : Option String) (professionalId : Option Nat)
    (slot : AvailableSlot)
    (hs : slot ∈ getAvailableSlots professionalsTable appointmentsTable establishmentId
      todayStr date professionalId) :
    slot.date = date.getD todayStr
    ∧ slot.time ∈ timeSlots
    ∧ (∃ p ∈ professionalsTable, p.id = slot.professional_id ∧ p.name = slot.professional_name
        ∧ p.establishment_id = establishmentId ∧ p.active = true)
    ∧ ¬ (∃ apt ∈ appointmentsTable,
          apt.professional_id = slot.professional_id
          ∧ apt.appointment_date = slot.date
          ∧ apt.appointment_time = slot.time
          ∧ (apt.status = .scheduled ∨ apt.status = .confirmed)) := by
  unfold getAvailableSlots at hs
  simp only [List.mem_flatMap, List.mem_filterMap, List.mem_filter] at hs
  obtain ⟨prof, ⟨hprofmem, hprofcond⟩, t, htmem, hcond⟩ := hs
  by_cases hocc : (appointmentsTable.filter (fun a =>
      a.appointment_date == date.getD todayStr &&
        (a.status == .scheduled || a.status == .confirmed))).any
      (fun apt => apt.professional_id == prof.id && apt.appointment_time == t) = true
  · rw [if_pos hocc] at hcond
    cases hcond
  · rw [if_neg hocc] at hcond
    have hslot : slot = AvailableSlot.mk (date.getD todayStr) t prof.id prof.name := by
      injection hcond with h
      exact h.symm
    subst hslot
    simp only [Bool.and_eq_true, beq_iff_eq] at hprofcond
    refine ⟨rfl, htmem, ⟨prof, hprofmem, rfl, rfl, hprofcond.1.1, hprofcond.1.2⟩, ?_⟩
    rintro ⟨apt, hmem, hpid, hdate, htime, hstat⟩
    simp only at hpid hdate htime
    have hfil : apt ∈ appointmentsTable.filter (fun a =>
        a.appointment_date == date.getD todayStr &&
          (a.status == .scheduled || a.status == .confirmed)) := by
      refine List.mem_filter.mpr ⟨hmem, ?_⟩
      simp only [Bool.and_eq_true, Bool.or_eq_true, beq_iff_eq]
      rcases hstat with hst | hst
      · exact ⟨hdate, Or.inl hst⟩
      · exact ⟨hdate, Or.inr hst⟩
    have hocc' : (appointmentsTable.filter (fun a =>
        a.appointment_date == date.getD todayStr &&
          (a.status == .scheduled || a.status == .confirmed))).any
        (fun apt => apt.professional_id == prof.id && apt.appointment_time == t) = false :=
      Bool.eq_false_iff.mpr hocc
    have hall := (List.any_eq_false.mp hocc') apt hfil
    simp only [Bool.and_eq_true, beq_iff_eq] at hall
    exact hall ⟨hpid, htime⟩

/-- C9 witness: with one professional and one confirmed 09:00 booking,
the 08:00 slot is produced and provably collides with no booking. -/
theorem availableSlots_on_grid_and_exclude_booked_witness :
    ({ date := "2026-01-01", time := "08:00:00", professional_id := 1,
       professional_name := "Ana" } : AvailableSlot).date =
        (none : Option String).getD "2026-01-01"
    ∧ ({ date := "2026-01-01", time := "08:00:00", professional_id := 1,
         professional_name := "Ana" } : AvailableSlot).time ∈ timeSlots
    ∧ (∃ p ∈ sampleProfessionals, p.id = 1 ∧ p.name = "Ana"
        ∧ p.establishment_id = "e1" ∧ p.active = true)
    ∧ ¬ (∃ apt ∈ sampleAppointments,
          apt.professional_id = 1
          ∧ apt.appointment_date = "2026-01-01"
          ∧ apt.appointment_time = "08:00:00"
          ∧ (apt.status = .scheduled ∨ apt.status = .confirmed)) := by
  have h := availableSlots_on_grid_and_exclude_booked sampleProfessionals sampleAppointments
    "e1" "2026-01-01" none none
    { date := "2026-01-01", time := "08:00:00", professional_id := 1,
      professional_name := "Ana" } (by decide)
  exact h

/-! ## C2 — failure handling in the orchestrated turn -/

/-- C2 counterexample (refuting the claim as stated): with a healthy
gateway and database but a failing LLM (both the classifier stage and
reply generation throw), the turn for an inbound text message ends in a
failure result and *no* message is handed to the outbound gateway — the
client receives no reply at all, rather than a generic apology. -/
theorem llmFailure_sends_no_reply :
    (processMessage failingLLMCollaborators sampleInboundMessage).2 = []
    ∧ (processMessage failingLLMCollaborators sampleInboundMessage).1.success = false := by
  constructor
  · decide
  · decide

/-- C2 (corrected): for a text turn with healthy persistence whose
resolved intent is not `scheduling`/`cancel`, (a) if LLM reply
generation throws, the outer catch returns a failure result and the
only gateway sends of the turn are the possible one-time welcome —
no reply to the inbound message is sent; (b) a classifier-stage failure
alone is absorbed: whenever reply generation succeeds, the reply is
handed to the gateway. -/
theorem llmFailure_turn_fails_without_reply
    (o : Collaborators) (m : ProcessedMessage) (row : ContextRow)
    (hsave : o.saveOk = true) (htype : m.messageType = "text")
    (hcontent : m.messageContent ≠ none) (hctx : o.context = some row)
    (hintent : (detectIntent o.llmClassifier (m.messageContent.getD "")).1 ≠ .scheduling
      ∧ (detectIntent o.llmClassifier (m.messageContent.getD "")).1 ≠ .cancel) :
    (o.llmReply = .error () →
      (processMessage o m).1.success = false
      ∧ (processMessage o m).2 =
          (if row.context_data.messageCount = 0 then [welcomeTemplateContent] else []))
    ∧ (∀ r : String, o.llmReply = .ok r → r ∈ (processMessage o m).2) := by
  have hbranch : ∀ res : ProcessingResult × List String,
      (if o.saveOk = false then
        ({ success := false, response := none,
           error := some "Falha no processamento da mensagem" }, ([] : List String))
       else res) = res := by
    intro res
    rw [if_neg (by simp [hsave])]
  unfold processMessage
  rw [hbranch]
  rw [if_neg (by simp [htype, hcontent])]
  rw [hctx]
  simp only []
  rw [if_neg hintent.1, if_neg hintent.2]
  constructor
  · intro herr
    rw [herr]
    exact ⟨rfl, rfl⟩
  · intro r hok
    rw [hok]
    by_cases hsend : o.sendOk
    · simp [hsend]
    · simp [hsend]

/-- C2 witness: a classifier failure alone still produces a reply
attempt for the client, and a reply-generation failure produces
none (established-client context, so no welcome send either). -/
theorem llmFailure_turn_fails_without_reply_witness :
    ((processMessage failingLLMCollaborators sampleInboundMessage).1.success = false
      ∧ (processMessage failingLLMCollaborators sampleInboundMessage).2 =
          (if sampleContextRow.context_data.messageCount = 0
           then [welcomeTemplateContent] else []))
    ∧ "resposta" ∈ (processMessage failingClassifierCollaborators sampleInboundMessage).2 := by
  constructor
  · exact (llmFailure_turn_fails_without_reply failingLLMCollaborators sampleInboundMessage
      sampleContextRow rfl rfl (by decide) rfl (by decide)).1 rfl
  · exact (llmFailure_turn_fails_without_reply failingClassifierCollaborators
      sampleInboundMessage sampleContextRow rfl rfl (by decide) rfl (by decide)).2 "resposta" rfl

end Pulse
